import Mathlib

/-!
Verification of the Parsoid HTML→wikitext serializer
(`js/lib/mediawiki.WikitextSerializer.js`, here bundled with
`js/lib/dom.cleanup.js`) and the VE content view
(`modules/ve/ce/ve.es.Content.js`).

Strings are modelled as `List Char`; JavaScript regular expressions are
translated into explicit character-level scanners, each accompanied by a
comment relating it to the original pattern.
-/

namespace Parsoid

/-- Characters matched by the JavaScript regexp class `\s`
(ASCII whitespace plus NBSP, BOM, and the Unicode space and line
separators). -/
def jsSpace (c : Char) : Bool :=
  c = ' ' || c = '\t' || c = '\n' || c = '\r' ||
  c.toNat = 0x0b || c.toNat = 0x0c ||
  c.toNat = 0xa0 || c.toNat = 0x1680 ||
  (0x2000 ≤ c.toNat && c.toNat ≤ 0x200a) ||
  c.toNat = 0x2028 || c.toNat = 0x2029 || c.toNat = 0x202f ||
  c.toNat = 0x205f || c.toNat = 0x3000 || c.toNat = 0xfeff

/-- Characters matched by the JavaScript regexp class `\w`
(used to interpret the word-boundary assertion `\b`). -/
def jsWord (c : Char) : Bool :=
  ('a' ≤ c && c ≤ 'z') || ('A' ≤ c && c ≤ 'Z') || ('0' ≤ c && c ≤ '9') || c = '_'

/-- JavaScript `String.prototype.substring(start, end)`: clamps both
indices to the string bounds and swaps them when `start > end`.
Used by `state.getOrigSrc` (`return this.env.page.src.substring(start, end)`). -/
def jsSubstring (l : List Char) (a b : Nat) : List Char :=
  (l.take (Nat.max a b)).drop (Nat.min a b)

/-!
### The separator grammar (`isValidSep`)

Source:
```
function isValidSep(sep) {
    return sep.match(/^(\s|<!--([^\-]|-(?!->))*-->)*$/);
}
```
The comment body `([^\-]|-(?!->))*` consumes any character that does not
begin the terminator `-->`, so the scan is deterministic: at each position
inside a comment, either the next three characters are `-->` (ending the
comment) or exactly one character is consumed.
-/

/-- State-machine scan for the separator grammar.  The flag records
whether the scan is inside a comment body: outside, a whitespace
character is consumed or `<!--` enters a comment; inside, `-->` leaves
the comment and any other character is consumed. -/
def isValidSepScan : Bool → List Char → Bool
  | false, [] => true
  | true, [] => false
  | false, '<' :: '!' :: '-' :: '-' :: rest => isValidSepScan true rest
  | false, c :: rest => jsSpace c && isValidSepScan false rest
  | true, '-' :: '-' :: '>' :: rest => isValidSepScan false rest
  | true, _ :: rest => isValidSepScan true rest

/-- `isValidSep` on character lists: a sequence of whitespace characters
and complete HTML comments. -/
def isValidSepL (l : List Char) : Bool := isValidSepScan false l

/-- `isValidSep` on strings. -/
def isValidSep (s : String) : Bool := isValidSepL s.data

/-!
### Separator choice in selser mode (`WSP.emitSepAndOutput`, lines 549-560)

```
emitSepAndOutput: function(res, node, cb) {
    // Emit separator first
    if (this.prevNodeUnmodified && this.currNodeUnmodified) {
        var origSep = this.getOrigSrc(this.prevNode.data.parsoid.dsr[1],
                                      node.data.parsoid.dsr[0]);
        if (isValidSep(origSep)) {
            this.emitSep(origSep, node, cb, 'ORIG-SEP:');
        } else {
            this.serializer.emitSeparator(this, cb, node);
        }
    } else {
        this.serializer.emitSeparator(this, cb, node);
    }
    ...
```
`emitSeparator` (the synthesized-separator engine) is passed in as a
function parameter; the theorems hold for every instantiation of it.
-/

/-- The inputs of the separator-choice step of `emitSepAndOutput`. -/
structure SelserSepInput where
  /-- `this.prevNodeUnmodified`. -/
  prevNodeUnmodified : Bool
  /-- `this.currNodeUnmodified`. -/
  currNodeUnmodified : Bool
  /-- `this.env.page.src` (read by `getOrigSrc`). -/
  pageSrc : List Char
  /-- `this.prevNode.data.parsoid.dsr[1]`. -/
  prevDsrEnd : Nat
  /-- `node.data.parsoid.dsr[0]`. -/
  currDsrStart : Nat

/-- The separator string emitted by `emitSepAndOutput` before the node's
own output, with the synthesized-separator engine `emitSeparator`
abstracted as a parameter. -/
def emitSepAndOutputSep (emitSeparator : Unit → List Char)
    (st : SelserSepInput) : List Char :=
  if st.prevNodeUnmodified && st.currNodeUnmodified then
    let origSep := jsSubstring st.pageSrc st.prevDsrEnd st.currDsrStart
    if isValidSepL origSep then origSep else emitSeparator ()
  else emitSeparator ()

/-!
### Escape-handler stack balance (`serializeChildren`, lines 487-530)

```
serializeChildren: function(node, chunkCB, wtEscaper) {
    ...
    if (wtEscaper) {
        this.wteHandlerStack.push(wtEscaper);
    }
    while (child) { nextChild = this.serializer._serializeNode(child, this); ... }
    ...
    if (wtEscaper) {
        this.wteHandlerStack.pop();
    }
},
```
The only other stack mutation in the serializer is the balanced
push/pop pair around the `escapeWikiText` call in
`escapeWikiLinkContentString` (lines 1027-1029), which is a no-op on the
stack.  Each element handler reached through `_serializeNode` recurses
into its own children via `serializeChildren`, passing an optional
escaper of its own.  We model a node as its optional escaper together
with its forest of children; `wteHandlerStack` is a list whose head is
the stack top.
-/

mutual
/-- A DOM node as seen by the escape-handler stack: the optional
`wtEscaper` its handler passes to `serializeChildren`, and its children. -/
inductive SerNode where
  | mk : Option Nat → SerForest → SerNode
/-- A list of sibling nodes. -/
inductive SerForest where
  | nil : SerForest
  | cons : SerNode → SerForest → SerForest
end

/-- `if (wtEscaper) this.wteHandlerStack.push(wtEscaper)`. -/
def pushEsc (esc : Option Nat) (stack : List Nat) : List Nat :=
  match esc with
  | some e => e :: stack
  | none => stack

/-- `if (wtEscaper) this.wteHandlerStack.pop()`. -/
def popEsc (esc : Option Nat) (stack : List Nat) : List Nat :=
  match esc with
  | some _ => stack.tail
  | none => stack

mutual
/-- Effect of `_serializeNode` on `wteHandlerStack`: the dispatched
handler serializes the node's children through `serializeChildren`
(push the optional escaper, walk the children, pop). -/
def serializeNodeStack : SerNode → List Nat → List Nat
  | .mk esc children, stack =>
    popEsc esc (serializeForestStack children (pushEsc esc stack))

/-- Effect of the `while (child)` sibling walk on `wteHandlerStack`. -/
def serializeForestStack : SerForest → List Nat → List Nat
  | .nil, stack => stack
  | .cons n rest, stack => serializeForestStack rest (serializeNodeStack n stack)
end

/-- Effect of `serializeChildren(node, chunkCB, wtEscaper)` on
`wteHandlerStack`: push the optional escaper, walk the children, pop. -/
def serializeChildrenStack (esc : Option Nat) (children : SerForest)
    (stack : List Nat) : List Nat :=
  popEsc esc (serializeForestStack children (pushEsc esc stack))

mutual
theorem serializeForestStack_preserves (f : SerForest) (stack : List Nat) :
    serializeForestStack f stack = stack := by
  match f with
  | .nil => simp [serializeForestStack]
  | .cons n rest =>
    simp [serializeForestStack, serializeNodeStack_preserves n stack,
          serializeForestStack_preserves rest stack]

theorem serializeNodeStack_preserves (n : SerNode) (stack : List Nat) :
    serializeNodeStack n stack = stack := by
  match n with
  | .mk esc children =>
    simp [serializeNodeStack,
          serializeForestStack_preserves children (pushEsc esc stack)]
    cases esc <;> rfl
end

/-!
### Separator constraints (`WSP.mergeConstraints`, lines 2664-2682)

```
WSP.mergeConstraints = function (oldConstraints, newConstraints) {
    var res = {a: oldConstraints.a, b:newConstraints.b};
    res.min = Math.max(oldConstraints.min || 0, newConstraints.min || 0);
    res.max = Math.min(oldConstraints.max !== undefined ? oldConstraints.max : 2,
            newConstraints.max !== undefined ? newConstraints.max : 2);
    if (res.min > res.max) {
        // let newConstraints win, but complain
        if (newConstraints.max !== undefined && newConstraints.max > res.min) {
            res.max = newConstraints.max;
        } else if (newConstraints.min && newConstraints.min < res.min) {
            res.min = newConstraints.min;
        }
        res.max = res.min;
        console.error('Incompatible constraints (merge):', ...);
    }
    return res;
};
```
The `a`/`b` fields carry the two nodes' handler records; they do not
interact with `min`/`max` and are omitted here.  Note that after the
conflict branches the source unconditionally executes `res.max = res.min`,
overwriting the `res.max = newConstraints.max` assignment of the first
branch.  `oldConstraints.min || 0` treats an absent *or zero* min as 0,
and `newConstraints.min && ...` treats an absent or zero min as false;
both are modelled with `Option.getD 0` plus a `≠ 0` test.
-/

/-- A separator constraint record (`{min, max}`), with `none` modelling
an `undefined` field. -/
structure SepConstraints where
  min : Option Nat
  max : Option Nat
deriving DecidableEq

/-- `WSP.mergeConstraints`. -/
def mergeConstraints (oldC newC : SepConstraints) : SepConstraints :=
  let resMin := Nat.max (oldC.min.getD 0) (newC.min.getD 0)
  let resMax := Nat.min (oldC.max.getD 2) (newC.max.getD 2)
  if resMin ≤ resMax then ⟨some resMin, some resMax⟩
  else
    -- the two conflict branches, followed by the unconditional
    -- `res.max = res.min`
    let res1 : SepConstraints :=
      if newC.max.isSome ∧ resMin < newC.max.getD 0 then ⟨some resMin, newC.max⟩
      else if newC.min.getD 0 ≠ 0 ∧ newC.min.getD 0 < resMin then ⟨newC.min, some resMax⟩
      else ⟨some resMin, some resMax⟩
    ⟨res1.min, res1.min⟩

/-!
### The `br` tag handler (`tagHandlers.br.handle`, lines 1925-1954)

```
br: {
    handle: function(node, state, cb) {
        if (node.data.parsoid.stx === 'html' || node.parentNode.nodeName !== 'P') {
            cb('<br>', node);
        } else {
            // Trigger separator
            if (state.sep.constraints && state.sep.constraints.min === 2 &&
                    node.parentNode.childNodes.length === 1) {
                // p/br pair
                state.sep.constraints.min = 2;
                state.sep.constraints.max = 2;
                cb('', node);
            } else {
                cb('', node);
            }
        }
    },
    ...
```
-/

/-- The inputs the `br` handler reads. -/
structure BrEnv where
  /-- `node.data.parsoid.stx`. -/
  stx : Option String
  /-- `node.parentNode.nodeName`. -/
  parentNodeName : String
  /-- `node.parentNode.childNodes.length`. -/
  parentChildCount : Nat
  /-- `state.sep.constraints`. -/
  sepConstraints : Option SepConstraints
deriving DecidableEq

/-- `tagHandlers.br.handle`: returns the emitted chunk and the value of
`state.sep.constraints` after the call. -/
def brHandle (env : BrEnv) : List Char × Option SepConstraints :=
  if env.stx = some "html" ∨ env.parentNodeName ≠ "P" then
    ("<br>".data, env.sepConstraints)
  else
    match env.sepConstraints with
    | some c =>
      if c.min = some 2 ∧ env.parentChildCount = 1 then
        ([], some { c with min := some 2, max := some 2 })
      else ([], some c)
    | none => ([], none)

/-!
### Marker-meta stripping (`stripMarkerMetas`, dom.cleanup.js lines 5-27)

```
function stripMarkerMetas(editMode, node) {
    var metaType = node.getAttribute("typeof");
    if (metaType &&
        (metaType.match(/\bmw:(StartTag|EndTag|Extension\/ref\/Marker|TSRMarker)\/?[^\s]*\b/) &&
        !node.getAttribute("property")) ||
        (editMode && metaType === "mw:Placeholder/StrippedTag")
    ) {
        var nextNode = node.nextSibling;
        DU.deleteNode(node);
        return nextNode;
    } else {
        return true;
    }
}
```
By `&&`/`||` precedence the condition is
`(metaType && match && !property) || (editMode && metaType === "mw:Placeholder/StrippedTag")`:
the regex branch is *not* gated on `editMode`.

For the regex: the four literal alternatives each end in a word
character, so the trailing `\/?[^\s]*\b` always succeeds once a literal
has matched (`[^\s]` also matches `/`, so `\/?[^\s]*` matches the same
strings as `[^\s]*`; starting from a word character, a greedy non-space
run with backtracking always reaches a word boundary: at the first
non-word character, at the first space, or at the end of the string).
The regex therefore matches exactly when one of the four literals occurs
at the string start or right after a non-word character.
-/

/-- JS truthiness of a `getAttribute` result (`null` or empty string are
falsy). -/
def jsTruthy (o : Option String) : Bool :=
  match o with
  | some s => !s.isEmpty
  | none => false

/-- The four marker literals of the `stripMarkerMetas` regex. -/
def markerLits : List (List Char) :=
  ["mw:StartTag".data, "mw:EndTag".data,
   "mw:Extension/ref/Marker".data, "mw:TSRMarker".data]

/-- Scan for a marker literal preceded by a word boundary; `bdry` says
whether the current position follows the string start or a non-word
character. -/
def markerTypeScan (bdry : Bool) : List Char → Bool
  | [] => false
  | c :: rest =>
    (bdry && markerLits.any (fun lit => lit.isPrefixOf (c :: rest))) ||
    markerTypeScan (!jsWord c) rest

/-- `metaType.match(/\bmw:(StartTag|EndTag|Extension\/ref\/Marker|TSRMarker)\/?[^\s]*\b/)`. -/
def markerTypeMatch (l : List Char) : Bool := markerTypeScan true l

/-- The attributes `stripMarkerMetas` reads from the meta node. -/
structure MetaEnv where
  /-- `node.getAttribute("typeof")` (`none` models `null`). -/
  typeofAttr : Option String
  /-- `node.getAttribute("property")`. -/
  propertyAttr : Option String
deriving DecidableEq

/-- `stripMarkerMetas(editMode, node)`: `false` models the deletion
branch (the source returns `nextSibling` there), `true` models `return
true` (node kept). -/
def stripMarkerMetas (editMode : Bool) (node : MetaEnv) : Bool :=
  let metaType := node.typeofAttr
  let regexBranch :=
    match metaType with
    | some s => !s.isEmpty && markerTypeMatch s.data && !(jsTruthy node.propertyAttr)
    | none => false
  let placeholderBranch := editMode && metaType == some "mw:Placeholder/StrippedTag"
  if regexBranch || placeholderBranch then false else true

/-!
### Comment serialization (`commentWT`, lines 152-154)

```
function commentWT(comment) {
    return '<!--' + comment.replace(PAT, '--&gt;') + '-->';
}
```
where `PAT` is the regex literal matching the three characters `-->`
(spelled out here to keep this comment well formed).  The regex has no
`g` flag: `String.replace` rewrites only the *first* occurrence of
`-->`.
-/

/-- The `comment.replace(PAT, '--&gt;')` call: replace the first
occurrence of `-->` only. -/
def replaceFirstCloseArrow : List Char → List Char
  | '-' :: '-' :: '>' :: rest => "--&gt;".data ++ rest
  | c :: rest => c :: replaceFirstCloseArrow rest
  | [] => []

/-- `commentWT`. -/
def commentWT (comment : List Char) : List Char :=
  "<!--".data ++ replaceFirstCloseArrow comment ++ "-->".data

/-!
### The escape oracle (`WSP.escapeWikiText`, lines 632-768) and
`escapedText` (lines 627-630)

```
function escapedText(text) {
    var match = text.match(/^((?:.*?|[\r\n]+[^\r\n]|[~]{3,5})*?)((?:\r?\n)*)$/);
    return ["<nowiki>", match[1], "</nowiki>", match[2]].join('');
}
```
Group 1 is lazy, so the engine tries group-2 start positions from the
left: a successful match always assigns to group 2 the longest suffix
of the text matching `(\r?\n)*` and to group 1 the remaining head.
When that head cannot be matched by group 1, no other split succeeds
either — every longer head ends the group-1 input with a `[\r\n]` run,
which no alternative can match (`[\r\n]+` must be followed by one
`[^\r\n]` character) — so `text.match(...)` is `null` and the
`match[1]` access throws a TypeError.

Group-1 matchability: the iterations are `.*?` (a run of characters
other than the four line terminators `\n \r U+2028 U+2029`),
`[\r\n]+[^\r\n]` (a CR/LF run followed by exactly one non-CR/LF
character, which may be U+2028/U+2029), and `~{3,5}` (subsumed by
`.*?`).  A maximal CR/LF run cannot be split across iterations (the
closing `[^\r\n]` cannot be a CR/LF), so a string matches group 1 iff
every maximal CR/LF run is followed by at least one more character and
every U+2028/U+2029 is immediately preceded by a CR or LF.
-/

/-- A character matched by the JavaScript regexp `.` (anything except
the four line terminators). -/
def jsDot (c : Char) : Bool :=
  !(c = '\n' || c = '\r' || c.toNat = 0x2028 || c.toNat = 0x2029)

/-- Split the *reversed* text into the (reversed) maximal trailing
newline run — the longest suffix matching `(\r?\n)*` — and the
(reversed) head: each consumed unit is a `\n` optionally followed (in
reversed order) by its `\r`. -/
def nlSuffixRev : List Char → List Char × List Char
  | [] => ([], [])
  | [c] => if c = '\n' then (['\n'], []) else ([], [c])
  | c1 :: c2 :: rest =>
    if c1 = '\n' then
      if c2 = '\r' then
        ('\n' :: '\r' :: (nlSuffixRev rest).1, (nlSuffixRev rest).2)
      else
        ('\n' :: (nlSuffixRev (c2 :: rest)).1, (nlSuffixRev (c2 :: rest)).2)
    else ([], c1 :: c2 :: rest)

/-- State-machine check of group-1 matchability, per the analysis
above; the flag records whether the scan is inside a CR/LF run.  A run
must be closed by one further character of any kind other than CR/LF
(the `[^\r\n]` of `[\r\n]+[^\r\n]`, which may be U+2028/U+2029); outside
a run, a U+2028/U+2029 is unmatchable. -/
def group1ScanSt : Bool → List Char → Bool
  | false, [] => true
  | true, [] => false
  | false, c :: rest =>
    if c = '\r' || c = '\n' then group1ScanSt true rest
    else if jsDot c then group1ScanSt false rest
    else false
  | true, c :: rest =>
    if c = '\r' || c = '\n' then group1ScanSt true rest
    else group1ScanSt false rest

/-- Whether group 1 of the `escapedText` regex can match a string. -/
def group1Scan (l : List Char) : Bool := group1ScanSt false l

/-- `escapedText`: when group 1 can match the head (the text minus its
maximal trailing newline run), wrap the head in `<nowiki>…</nowiki>`
and reattach the run after the closing tag.  When it cannot (e.g. the
head ends in a bare carriage return), `text.match` yields `null` and
the `match[1]` access throws a TypeError — modelled as `none`. -/
def escapedText (text : List Char) : Option (List Char) :=
  if group1Scan (nlSuffixRev text.reverse).2.reverse then
    some ("<nowiki>".data ++ (nlSuffixRev text.reverse).2.reverse ++
          "</nowiki>".data ++ (nlSuffixRev text.reverse).1.reverse)
  else none

theorem nlSuffixRev_length (l : List Char) :
    (nlSuffixRev l).1.length + (nlSuffixRev l).2.length = l.length := by
  match l with
  | [] => simp [nlSuffixRev]
  | [c] => by_cases hc : c = '\n' <;> simp [nlSuffixRev, hc]
  | c1 :: c2 :: rest =>
    have ih1 := nlSuffixRev_length rest
    have ih2 := nlSuffixRev_length (c2 :: rest)
    simp only [List.length_cons] at ih2
    by_cases h1 : c1 = '\n' <;> by_cases h2 : c2 = '\r' <;>
      simp [nlSuffixRev, h1, h2] <;> omega

theorem escapedText_ne_raw (text : List Char) : escapedText text ≠ some text := by
  unfold escapedText
  split
  · intro h
    injection h with h
    have hlen := congrArg List.length h
    have hsum := nlSuffixRev_length text.reverse
    have h8 : ("<nowiki>".data).length = 8 := rfl
    have h9 : ("</nowiki>".data).length = 9 := rfl
    simp only [List.length_append, List.length_reverse, h8, h9] at hlen hsum
    omega
  · intro h
    exact Option.noConfusion h

/-- The three magic-link trigger words of `urlTriggers`. -/
def urlTriggerLits : List (List Char) := ["RFC".data, "ISBN".data, "PMID".data]

/-- A literal occurring here as a whole word: the input starts with the
literal and the following character (if any) is not a word character. -/
def litBoundedPrefix (lit : List Char) (l : List Char) : Bool :=
  lit.isPrefixOf l &&
    (match l.drop lit.length with
     | [] => true
     | c :: _ => !jsWord c)

/-- Scan for a whole-word occurrence of a trigger literal; `bdry` says
whether the current position follows the string start or a non-word
character. -/
def urlTriggerScan (bdry : Bool) : List Char → Bool
  | [] => false
  | c :: rest =>
    (bdry && urlTriggerLits.any (fun lit => litBoundedPrefix lit (c :: rest))) ||
    urlTriggerScan (!jsWord c) rest

/-- `text.match(urlTriggers)` with `urlTriggers = /\b(RFC|ISBN|PMID)\b/`. -/
def urlTriggersMatch (l : List Char) : Bool := urlTriggerScan true l

/-- The character class `[<>\[\]\-\+\|'!=#\*:;~{}]` of the fast-accept
check. -/
def ewtSpecialChar (c : Char) : Bool :=
  c = '<' || c = '>' || c = '[' || c = ']' || c = '-' || c = '+' || c = '|' ||
  c = '\'' || c = '!' || c = '=' || c = '#' || c = '*' || c = ':' || c = ';' ||
  c = '~' || c = '{' || c = '}'

/-- `text.match(/^[ \t][^\s]+|[<>\[\]\-\+\|'!=#\*:;~{}]/)`: a leading
space or tab followed by a non-space character, or any wikitext-special
character anywhere. -/
def ewtFastCheckMatch (l : List Char) : Bool :=
  (match l with
   | c1 :: c2 :: _ => (c1 = ' ' || c1 = '\t') && !jsSpace c2
   | _ => false) ||
  l.any ewtSpecialChar

/-- The template-brace test: the regex
`\{\{\{|\{\{|\}\}\}|\}\}` matches exactly when the text contains `{{`
or `}}` (the triple-brace alternatives are subsumed). -/
def hasTplBraces : List Char → Bool
  | [] => false
  | [_] => false
  | c1 :: c2 :: rest =>
    ((c1 = '{' && c2 = '{') || (c1 = '}' && c2 = '}')) ||
    hasTplBraces (c2 :: rest)

/-- `text.match(/\n./)`: a newline followed by a non-line-terminator. -/
def hasNlDot : List Char → Bool
  | '\n' :: c :: rest => jsDot c || hasNlDot (c :: rest)
  | _ :: rest => hasNlDot rest
  | [] => false

/-- `text.match(/~{3,5}/)`: three or more consecutive tildes. -/
def hasTildesL : List Char → Bool
  | '~' :: '~' :: '~' :: _ => true
  | _ :: rest => hasTildesL rest
  | [] => false

/-- The non-SOL refined fast path regex
`''|[<>]|\[.*\]|\]|(=(\n|$))`: two quotes, an angle bracket, a closing
square bracket (the `\[.*\]` alternative always contains one, so it is
subsumed by `\]`), or `=` at a line end. -/
def f4Match : List Char → Bool
  | '\'' :: '\'' :: _ => true
  | '<' :: _ => true
  | '>' :: _ => true
  | ']' :: _ => true
  | '=' :: [] => true
  | '=' :: '\n' :: _ => true
  | _ :: rest => f4Match rest
  | [] => false

/-- First-character class `[ \t#*:;=]` of the SOL fast path. -/
def f5FirstChar (c : Char) : Bool :=
  c = ' ' || c = '\t' || c = '#' || c = '*' || c = ':' || c = ';' || c = '='

/-- Character class `[<\[\]>\|'!]` of the SOL fast path. -/
def f5SpecialChar (c : Char) : Bool :=
  c = '<' || c = '[' || c = ']' || c = '>' || c = '|' || c = '\'' || c = '!'

/-- Four consecutive dashes. -/
def containsFourDashes : List Char → Bool
  | '-' :: '-' :: '-' :: '-' :: _ => true
  | _ :: rest => containsFourDashes rest
  | [] => false

/-- The SOL refined fast path regex `^[ \t#*:;=]|[<\[\]>\|'!]|\-\-\-\-`. -/
def f5Match (l : List Char) : Bool :=
  (match l with
   | c :: _ => f5FirstChar c
   | [] => false) ||
  l.any f5SpecialChar || containsFourDashes l

/-- Scan for `\n ` followed by a non-space character. -/
def f6Scan : List Char → Bool
  | '\n' :: ' ' :: c :: rest => !jsSpace c || f6Scan (' ' :: c :: rest)
  | _ :: rest => f6Scan rest
  | [] => false

/-- The leading-space-pre test `(^ |\n )[^\s]+`. -/
def f6Match (l : List Char) : Bool :=
  (match l with
   | ' ' :: c :: _ => !jsSpace c
   | _ => false) ||
  f6Scan l

/-- `text.replace(re, ...)` for the global regex `<(\/?nowiki)>`:
rewrite every `<nowiki>` to `&lt;nowiki&gt;` and every `</nowiki>` to
`&lt;/nowiki&gt;`. -/
def escapeNowikis : List Char → List Char
  | '<' :: 'n' :: 'o' :: 'w' :: 'i' :: 'k' :: 'i' :: '>' :: rest =>
    "&lt;nowiki&gt;".data ++ escapeNowikis rest
  | '<' :: '/' :: 'n' :: 'o' :: 'w' :: 'i' :: 'k' :: 'i' :: '>' :: rest =>
    "&lt;/nowiki&gt;".data ++ escapeNowikis rest
  | c :: rest => c :: escapeNowikis rest
  | [] => []

/-- The SOL heading-ambiguity regex `^=+[^=]+=+$`: a leading `=` run, a
nonempty middle without `=`, and a trailing `=` run. -/
def headingLineMatch (l : List Char) : Bool :=
  let lead := l.takeWhile (fun c => c = '=')
  let rest := l.dropWhile (fun c => c = '=')
  let revRest := rest.reverse
  let trail := revRest.takeWhile (fun c => c = '=')
  let mid := (revRest.dropWhile (fun c => c = '=')).reverse
  !lead.isEmpty && !trail.isEmpty && !mid.isEmpty &&
    !(mid.any (fun c => c = '='))

/-- `cl.text.match(/^=/)`. -/
def startsWithEq : List Char → Bool
  | '=' :: _ => true
  | _ => false

/-- `text.match(/=$/)`. -/
def endsWithEq (l : List Char) : Bool :=
  match l.getLast? with
  | some c => c = '='
  | none => false

/-- `text.match(/^[^\[]*\]/)`: a `]` occurring before any `[`. -/
def closesBracket : List Char → Bool
  | '[' :: _ => false
  | ']' :: _ => true
  | _ :: rest => closesBracket rest
  | [] => false

/-- Scan of the reversed text for `\[[^\]]*$`: a `[` with no later `]`. -/
def openBracketScanRev : List Char → Bool
  | ']' :: _ => false
  | '[' :: _ => true
  | _ :: rest => openBracketScanRev rest
  | [] => false

/-- `cl.text.match(/\[[^\]]*$/)`. -/
def hasOpenBracketL (l : List Char) : Bool := openBracketScanRev l.reverse

/-- `state.currLine`.  `firstNodeHeadingSrcOk` models the DOM-side test
of lines 737-739 (`DU.isText(DU.firstNonSepChildNode(cl.firstNode.parentNode))
|| cl.firstNode.nodeName.match(/^H/) && ...`), which reads the DOM and
not the serializer state. -/
structure CurrLine where
  text : List Char
  processed : Bool
  hasOpenHeadingChar : Bool
  hasOpenBrackets : Bool
  firstNodeHeadingSrcOk : Bool

/-- The `opts` record passed to `escapeWikiText`. -/
structure EWTOpts where
  isLastChild : Bool

/-- The serializer-state fields read by `escapeWikiText`.  The
`wteHandlerStack` holds the context escape predicates, top first
(`.last()` of the JS array is the head here); each handler is modelled
as a predicate of the text and the opts, its reading of the serializer
state being absorbed by quantifying over the function. -/
structure EWTState where
  onSOL : Bool
  inIndentPre : Bool
  inPHPBlock : Bool
  wteHandlerStack : List (List Char → EWTOpts → Bool)
  currLine : CurrLine

/-- `WSP.escapeWikiText`.  The external tokenizer check
`this.wteHandlers.hasWikitextTokens(state, sol, text, linerange)` (the
spec's out-of-scope escape-oracle tokenizer) is abstracted as the
`hasWikitextTokens` parameter.  The result is `some` of the returned
string; `none` models the TypeError thrown out of an `escapedText`
call (see `escapedText`). -/
def escapeWikiText (hasWikitextTokens : Bool → List Char → Bool → Bool)
    (st : EWTState) (text : List Char) (opts : EWTOpts) : Option (List Char) :=
  let fullCheckNeeded := urlTriggersMatch text
  -- F1: quick accept for text without wikitext-special characters
  if !fullCheckNeeded && !ewtFastCheckMatch text then some text
  -- F2: context-specific escape handler
  else if (match st.wteHandlerStack.head? with
           | some h => h text opts
           | none => false) then escapedText text
  -- F3: template and template-arg markers are escaped unconditionally
  else if hasTplBraces text then escapedText text
  else
    let sol := st.onSOL && !st.inIndentPre && !st.inPHPBlock
    let hasNewlines := hasNlDot text
    let tildes := hasTildesL text
    -- F4/F5: refined fast paths
    if !fullCheckNeeded && !hasNewlines && !tildes && !sol && !f4Match text then
      some text
    else if !fullCheckNeeded && !hasNewlines && !tildes && sol && !f5Match text then
      some text
    -- F6: leading-space indent-pre
    else if sol && f6Match text then escapedText text
    else
      -- escape nowiki tags, then tokenize
      let text2 := escapeNowikis text
      if hasWikitextTokens sol text2 false || tildes then escapedText text2
      else if st.onSOL then
        -- DBG2/DBG3: heading ambiguity at SOL
        if headingLineMatch text2 then escapedText text2 else some text2
      else
        -- DBG4/DBG5: cross-chunk current-line scans
        let cl := st.currLine
        let hasOpenHeadingChar :=
          if cl.processed then cl.hasOpenHeadingChar
          else startsWithEq cl.text && cl.firstNodeHeadingSrcOk
        let hasOpenBrackets :=
          if cl.processed then cl.hasOpenBrackets
          else hasOpenBracketL cl.text
        if (hasOpenHeadingChar && opts.isLastChild && endsWithEq text2) ||
           (hasOpenBrackets && closesBracket text2 &&
            hasWikitextTokens sol (cl.text ++ text2) true) then
          escapedText text2
        else some text2

theorem hasTplBraces_special :
    ∀ l, hasTplBraces l = true → l.any ewtSpecialChar = true := by
  intro l
  induction l with
  | nil => intro h; simp [hasTplBraces] at h
  | cons c rest ih =>
    intro h
    cases rest with
    | nil => simp [hasTplBraces] at h
    | cons c2 rest2 =>
      rw [hasTplBraces] at h
      rcases Bool.or_eq_true_iff.mp h with hpair | hrec
      · rcases Bool.or_eq_true_iff.mp hpair with hb | hb <;>
        · obtain ⟨h1, _⟩ := Bool.and_eq_true_iff.mp hb
          simp only [decide_eq_true_eq] at h1
          subst h1
          simp [ewtSpecialChar]
      · have := ih hrec
        simp [List.any_cons, this]

/-!
### Handler exceptions (`WSP._serializeNode` lines 3030-3046 and
`WSP.serializeDOM` lines 3167-3172)

In `_serializeNode`, the tag handler's `handle` call is wrapped in its
own try/catch, which logs and falls through — nothing is re-thrown:
```
if ( domHandler && domHandler.handle ) {
    try {
        domHandler.handle(node, state, cb);
    } catch(e) {
        console.error(e.stack || e.toString());
        console.error(node.nodeName, domHandler);
    }
} else { ... }
state.inModifiedContent = false;
```
and the sibling walk continues with the next node.  `serializeDOM`'s
outer catch only sees exceptions raised outside that inner guard:
```
} catch (e) {
    console.warn("Error in serializeDOM: " + ...);
    state.env.errCB(e);
    throw e;
}
```
A node is modelled by its `nodeName` and the outcome of its handler:
`.ok chunk` for a normal emission, `.error e` for a thrown exception.
-/

/-- The sibling walk of `_serializeNode` invocations: each handler call
is guarded by the inner try/catch, which records the exception and the
node name via `console.error` and continues.  Returns the emitted chunks
and the `(exception, nodeName)` log entries, in order. -/
def serializeSiblingsCatch :
    List (String × Except String (List Char)) →
      List (List Char) × List (String × String)
  | [] => ([], [])
  | (name, h) :: rest =>
    let (outs, logs) := serializeSiblingsCatch rest
    match h with
    | .ok out => (out :: outs, logs)
    | .error e => (outs, (e, name) :: logs)

/-- `serializeDOM`'s outer try/catch: an exception reaching it is logged,
passed to `errCB` and re-thrown; a normal result is returned. -/
def serializeDOMCatch
    (run : Except String (List (List Char) × List (String × String))) :
    Except String (List (List Char) × List (String × String)) :=
  match run with
  | .ok a => .ok a
  | .error e => .error e

/-- `serializeDOM` over a list of element nodes: the sibling walk never
produces an exception (the inner catch swallows handler throws), so the
outer catch receives a normal result. -/
def serializeDOMRun (nodes : List (String × Except String (List Char))) :
    Except String (List (List Char) × List (String × String)) :=
  serializeDOMCatch (.ok (serializeSiblingsCatch nodes))

theorem serializeSiblingsCatch_spec
    (nodes : List (String × Except String (List Char))) :
    serializeSiblingsCatch nodes =
      (nodes.filterMap (fun n =>
         match n.2 with | .ok out => some out | .error _ => none),
       nodes.filterMap (fun n =>
         match n.2 with | .error e => some (e, n.1) | .ok _ => none)) := by
  induction nodes with
  | nil => rfl
  | cons n rest ih =>
    obtain ⟨name, h⟩ := n
    cases h <;> simp [serializeSiblingsCatch, ih]

/-!
### Template reconstruction (`WSP._buildTemplateWT`, lines 2157-2192)

```
WSP._buildTemplateWT = function(srcParts) {
    var buf = [], serializer = this;
    srcParts.map(function(part) {
        var tpl = part.template;
        if (tpl) {
            buf.push("{{");
            buf.push(tpl.target.wt);
            var argBuf = [], keys = Object.keys(tpl.params), n = keys.length;
            if (n > 0) {
                for (var i = 0; i < n; i++) {
                    var k = keys[i], v = serializer.escapeTplArgWT(tpl.params[k].wt);
                    if (k === (i+1).toString()) { argBuf.push(v); }
                    else { argBuf.push(k + "=" + v); }
                }
                buf.push("|");
                buf.push(argBuf.flatten("|"));
            }
            buf.push("}}");
        } else {
            buf.push(part);
        }
    });
    return buf.flatten('');
};
```
`params` is modelled as its key/value pairs in `Object.keys` order.
-/

/-- One entry of the `data-mw` `parts` array: either a template record
(`target.wt` plus the params map as key/value `wt` strings in
`Object.keys` order) or a plain wikitext string. -/
inductive TplPart where
  | template (targetWt : List Char) (params : List (List Char × List Char))
  | plain (wt : List Char)

/-- `WSP.escapeTplArgWT` (a `FIXME: to be done` identity in the source). -/
def escapeTplArgWT (arg : List Char) : List Char := arg

/-- `WSP._buildTemplateWT`. -/
def buildTemplateWT (srcParts : List TplPart) : List Char :=
  (srcParts.map (fun part =>
    match part with
    | .template target params =>
      let argBuf := params.enum.map (fun p =>
        let k := p.2.1
        let v := escapeTplArgWT p.2.2
        if k = (Nat.repr (p.1 + 1)).data then v else k ++ '=' :: v)
      "\x7b\x7b".data ++ target ++
        (if params.length > 0 then '|' :: List.intercalate ['|'] argBuf else []) ++
        "\x7d\x7d".data
    | .plain wt => wt)).flatten

/-- The claim's per-argument format: a parameter whose key equals the
decimal form of its 1-based position is emitted as its value alone,
every other parameter as `key=value`. -/
def claimTplArg (i : Nat) (kv : List Char × List Char) : List Char :=
  if kv.1 = (Nat.repr (i + 1)).data then kv.2 else kv.1 ++ '=' :: kv.2

/-- The claim's per-part format: `{{target}}` when the params map is
empty, `{{target|arg|…|arg}}` otherwise; non-template parts verbatim. -/
def claimPartWT : TplPart → List Char
  | .template target params =>
    if params.isEmpty then "\x7b\x7b".data ++ target ++ "\x7d\x7d".data
    else
      "\x7b\x7b".data ++ target ++ "|".data ++
        List.intercalate "|".data (params.enum.map (fun p => claimTplArg p.1 p.2)) ++
        "\x7d\x7d".data
  | .plain wt => wt

end Parsoid

namespace VE

/-!
### `ve.es.Content.renderAnnotation` (ve.es.Content.js, lines 155-201)

```
ve.es.Content.renderAnnotation = function( bias, annotation, stack ) {
    var renderers = ve.es.Content.annotationRenderers,
        type = annotation.type, out = '';
    if ( type in renderers ) {
        if ( bias === 'open' ) {
            stack.push( annotation );
            out += ... renderers[type].open ...;
        } else {
            if ( stack[stack.length - 1] === annotation ) {
                stack.pop();
                out += ... renderers[type].close ...;
            } else {
                var depth = ve.inArray( annotation, stack ), i;
                if ( depth === -1 ) {
                    throw 'Invalid stack error. An element is missing from the stack.';
                }
                for ( i = stack.length - 1; i >= depth + 1; i-- ) {
                    out += ... renderers[stack[i].type].close ...;
                }
                out += ... renderers[type].close ...;
                for ( i = depth + 1; i < stack.length; i++ ) {
                    out += ... renderers[stack[i].type].open ...;
                }
                stack.splice( depth, 1 );
            }
        }
    }
    return out;
};
```
The stack is modelled as a list in JS-array order (bottom first, top =
last element); `ve.inArray` is `Array.indexOf` (first occurrence,
strict equality).  Each renderer's `open`/`close` is either a constant
string or a function of `annotation.data`; both are modelled as
functions of the data record.  Accessing `renderers[stack[i].type]` for
a type without a renderer would throw a `TypeError` in JS; that is
modelled as an `.error` distinct from the invalid-stack throw.
-/

/-- The fields of `annotation.data` used by the renderer table
(`data.html`, `data.href`, `data.title`). -/
structure AnnData where
  html : List Char
  href : List Char
  title : List Char
deriving DecidableEq

/-- An annotation: its `type` string and its `data`. -/
structure Annotation where
  type : String
  data : AnnData
deriving DecidableEq

/-- An entry of `ve.es.Content.annotationRenderers`: the rendered
opening and closing of the annotation. -/
structure AnnRenderer where
  rOpen : AnnData → List Char
  rClose : AnnData → List Char

/-- `ve.es.Content.annotationRenderers`. -/
def annotationRenderers : List (String × AnnRenderer) :=
  [("object/template",
    ⟨fun d => "<span class=\"es-contentView-format-object\">".data ++ d.html,
     fun _ => "</span>".data⟩),
   ("object/hook",
    ⟨fun d => "<span class=\"es-contentView-format-object\">".data ++ d.html,
     fun _ => "</span>".data⟩),
   ("textStyle/bold",
    ⟨fun _ => "<span class=\"es-contentView-format-textStyle-bold\">".data,
     fun _ => "</span>".data⟩),
   ("textStyle/italic",
    ⟨fun _ => "<span class=\"es-contentView-format-textStyle-italic\">".data,
     fun _ => "</span>".data⟩),
   ("textStyle/strong",
    ⟨fun _ => "<span class=\"es-contentView-format-textStyle-strong\">".data,
     fun _ => "</span>".data⟩),
   ("textStyle/emphasize",
    ⟨fun _ => "<span class=\"es-contentView-format-textStyle-emphasize\">".data,
     fun _ => "</span>".data⟩),
   ("textStyle/big",
    ⟨fun _ => "<span class=\"es-contentView-format-textStyle-big\">".data,
     fun _ => "</span>".data⟩),
   ("textStyle/small",
    ⟨fun _ => "<span class=\"es-contentView-format-textStyle-small\">".data,
     fun _ => "</span>".data⟩),
   ("textStyle/superScript",
    ⟨fun _ => "<span class=\"es-contentView-format-textStyle-superScript\">".data,
     fun _ => "</span>".data⟩),
   ("textStyle/subScript",
    ⟨fun _ => "<span class=\"es-contentView-format-textStyle-subScript\">".data,
     fun _ => "</span>".data⟩),
   ("link/external",
    ⟨fun d => "<span class=\"es-contentView-format-link\" data-href=\"".data ++
              d.href ++ "\">".data,
     fun _ => "</span>".data⟩),
   ("link/internal",
    ⟨fun d => "<span class=\"es-contentView-format-link\" data-title=\"wiki/".data ++
              d.title ++ "\">".data,
     fun _ => "</span>".data⟩)]

/-- `type in renderers` plus `renderers[type]`. -/
def lookupRenderer (type : String) : Option AnnRenderer :=
  (annotationRenderers.find? (fun p => p.1 = type)).map (fun p => p.2)

/-- `ve.inArray(annotation, stack)` (`Array.indexOf`): index of the
first occurrence, `none` for `-1`. -/
def jsIndexOf (x : Annotation) : List Annotation → Option Nat
  | [] => none
  | a :: rest =>
    if a = x then some 0 else (jsIndexOf x rest).map (fun i => i + 1)

/-- The exception text of the invalid-stack throw. -/
def invalidStackMsg : String :=
  "Invalid stack error. An element is missing from the stack."

/-- Render one side (`rClose` or `rOpen`) of every annotation of a list,
in order, concatenated — the bodies of the two `for` loops.  A missing
renderer gives the JS `TypeError` on `renderers[...].close`. -/
def renderList (side : AnnRenderer → AnnData → List Char) :
    List Annotation → Except String (List Char)
  | [] => .ok []
  | a :: rest =>
    match lookupRenderer a.type with
    | none => .error "TypeError"
    | some r =>
      match renderList side rest with
      | .ok s => .ok (side r a.data ++ s)
      | .error e => .error e

/-- `ve.es.Content.renderAnnotation`: returns the rendered string and
the stack after the call, or the thrown exception. -/
def renderAnnotation (bias : String) (ann : Annotation)
    (stack : List Annotation) : Except String (List Char × List Annotation) :=
  match lookupRenderer ann.type with
  | none => .ok ([], stack)
  | some r =>
    if bias = "open" then
      .ok (r.rOpen ann.data, stack ++ [ann])
    else
      if stack.getLast? = some ann then
        .ok (r.rClose ann.data, stack.dropLast)
      else
        match jsIndexOf ann stack with
        | none => .error invalidStackMsg
        | some depth =>
          let above := stack.drop (depth + 1)
          match renderList (fun r d => r.rClose d) above.reverse with
          | .error e => .error e
          | .ok closes =>
            match renderList (fun r d => r.rOpen d) above with
            | .error e => .error e
            | .ok opens =>
              .ok (closes ++ r.rClose ann.data ++ opens,
                   stack.take depth ++ stack.drop (depth + 1))

theorem jsIndexOf_eq_none_iff (x : Annotation) (l : List Annotation) :
    jsIndexOf x l = none ↔ x ∉ l := by
  induction l with
  | nil => simp [jsIndexOf]
  | cons a rest ih =>
    simp only [jsIndexOf, List.mem_cons]
    by_cases h : a = x
    · simp [h]
    · simp only [if_neg h, Option.map_eq_none', ih]
      constructor
      · intro hn hx
        rcases hx with hx | hx
        · exact h hx.symm
        · exact hn hx
      · intro hn
        exact fun hx => hn (Or.inr hx)

theorem jsIndexOf_spec (x : Annotation) (l : List Annotation) :
    ∀ i, jsIndexOf x l = some i →
      ∃ h : i < l.length, l.get ⟨i, h⟩ = x := by
  induction l with
  | nil => intro i h; simp [jsIndexOf] at h
  | cons a rest ih =>
    intro i h
    simp only [jsIndexOf] at h
    by_cases ha : a = x
    · rw [if_pos ha] at h
      cases h
      exact ⟨by simp, ha⟩
    · rw [if_neg ha, Option.map_eq_some'] at h
      obtain ⟨j, hj, rfl⟩ := h
      obtain ⟨hlt, hget⟩ := ih j hj
      exact ⟨by simpa using Nat.succ_lt_succ hlt, hget⟩

theorem renderList_ok (side : AnnRenderer → AnnData → List Char)
    (l : List Annotation)
    (hall : ∀ a ∈ l, (lookupRenderer a.type).isSome = true) :
    ∃ s, renderList side l = .ok s := by
  induction l with
  | nil => exact ⟨[], rfl⟩
  | cons a rest ih =>
    have ha := hall a (by simp)
    obtain ⟨r, hr⟩ := Option.isSome_iff_exists.mp ha
    obtain ⟨s, hs⟩ := ih (fun b hb => hall b (by simp [hb]))
    exact ⟨side r a.data ++ s, by simp [renderList, hr, hs]⟩

/-- C10: for an annotation whose type has a renderer and a stack whose
entries all have renderers (which is an invariant of the stacks built by
`renderAnnotation` itself, since the `open` bias only pushes when
`type in renderers`), closing removes exactly one occurrence of that
annotation from the stack, preserving the relative order of all other
entries; when the stack does not contain the annotation, the
invalid-stack error is thrown. -/
theorem renderAnnotation_close_removes (ann : Annotation)
    (stack : List Annotation)
    (hr : (lookupRenderer ann.type).isSome = true)
    (hall : ∀ a ∈ stack, (lookupRenderer a.type).isSome = true) :
    (ann ∈ stack → ∃ i, ∃ h : i < stack.length,
       stack.get ⟨i, h⟩ = ann ∧
       ∃ out, renderAnnotation "close" ann stack =
         .ok (out, stack.take i ++ stack.drop (i + 1))) ∧
    (ann ∉ stack → renderAnnotation "close" ann stack =
       .error invalidStackMsg) := by
  obtain ⟨r, hrr⟩ := Option.isSome_iff_exists.mp hr
  have hbias : ¬(("close" : String) = "open") := by decide
  constructor
  · intro hmem
    by_cases hlast : stack.getLast? = some ann
    · -- the annotation is on top of the stack: pop
      have hne : stack ≠ [] := by
        intro h; rw [h] at hlast; exact Option.noConfusion hlast
      have hlt : stack.length - 1 < stack.length :=
        Nat.sub_lt (List.length_pos.mpr hne) Nat.one_pos
      refine ⟨stack.length - 1, hlt, ?_, r.rClose ann.data, ?_⟩
      · have h1 := List.getLast?_eq_getLast_of_ne_nil hne
        rw [h1] at hlast
        have h2 := List.getLast_eq_getElem stack hne
        injection hlast with hlast
        rw [← hlast, h2]
        simp [List.get_eq_getElem]
      · have hdl : stack.dropLast =
            stack.take (stack.length - 1) ++ stack.drop (stack.length - 1 + 1) := by
          rw [List.dropLast_eq_take]
          have : stack.length - 1 + 1 = stack.length :=
            Nat.succ_pred_eq_of_pos (List.length_pos.mpr hne)
          rw [this, List.drop_length, List.append_nil]
        rw [← hdl]
        simp [ renderAnnotation, hrr, hbias, hlast]
    · -- the annotation is buried: close above, close it, reopen above
      have hidx : jsIndexOf ann stack ≠ none := by
        intro h
        exact ((jsIndexOf_eq_none_iff ann stack).mp h) hmem
      obtain ⟨depth, hdepth⟩ := Option.ne_none_iff_exists'.mp hidx
      obtain ⟨hlt, hget⟩ := jsIndexOf_spec ann stack depth hdepth
      obtain ⟨cl, hcl⟩ := renderList_ok (fun r d => r.rClose d)
        (stack.drop (depth + 1)).reverse
        (fun a ha => hall a (List.mem_of_mem_drop (List.mem_reverse.mp ha)))
      obtain ⟨op, hop⟩ := renderList_ok (fun r d => r.rOpen d)
        (stack.drop (depth + 1))
        (fun a ha => hall a (List.mem_of_mem_drop ha))
      refine ⟨depth, hlt, hget, cl ++ r.rClose ann.data ++ op, ?_⟩
      simp [ renderAnnotation, hrr, hbias, hlast, hdepth, hcl, hop]
  · intro hmem
    have hlast : ¬(stack.getLast? = some ann) := by
      intro h
      obtain ⟨_, h2⟩ := List.mem_getLast?_eq_getLast (x := ann) (by rw [h]; rfl)
      exact hmem (h2 ▸ List.getLast_mem _)
    have hidx : jsIndexOf ann stack = none :=
      (jsIndexOf_eq_none_iff ann stack).mpr hmem
    simp [ renderAnnotation, hrr, hbias, hlast, hidx]

/-- A concrete bold annotation. -/
def boldAnnEx : Annotation := ⟨"textStyle/bold", ⟨[], [], []⟩⟩

/-- A concrete three-element annotation stack in which `boldAnnEx` is
buried under a link annotation. -/
def annStackEx : List Annotation :=
  [⟨"textStyle/italic", ⟨[], [], []⟩⟩, boldAnnEx,
   ⟨"link/external", ⟨[], "x".data, []⟩⟩]

/-- Witness for C10 at a concrete input: closing the buried
`textStyle/bold` annotation removes exactly it from the stack. -/
theorem renderAnnotation_close_removes_witness :
    boldAnnEx ∈ annStackEx ∧
    (∃ i, ∃ h : i < annStackEx.length, annStackEx.get ⟨i, h⟩ = boldAnnEx ∧
       ∃ out, renderAnnotation "close" boldAnnEx annStackEx =
         .ok (out, annStackEx.take i ++ annStackEx.drop (i + 1))) :=
  ⟨by decide,
   (renderAnnotation_close_removes boldAnnEx annStackEx (by decide)
     (by decide)).1 (by decide)⟩

end VE

namespace Parsoid

/-- C1: In selser mode, with both the previous and the current node marked
unmodified, `emitSepAndOutput` emits as separator exactly the original
source substring between the previous node's `dsr[1]` and the current
node's `dsr[0]` whenever that substring satisfies `isValidSep`; only when
the substring fails the separator grammar does it fall back to the
synthesized separator (`emitSeparator`). -/
theorem emitSepAndOutput_prefers_orig_sep (emitSeparator : Unit → List Char)
    (st : SelserSepInput) (hprev : st.prevNodeUnmodified = true)
    (hcurr : st.currNodeUnmodified = true) :
    (isValidSepL (jsSubstring st.pageSrc st.prevDsrEnd st.currDsrStart) = true →
      emitSepAndOutputSep emitSeparator st =
        jsSubstring st.pageSrc st.prevDsrEnd st.currDsrStart) ∧
    (isValidSepL (jsSubstring st.pageSrc st.prevDsrEnd st.currDsrStart) = false →
      emitSepAndOutputSep emitSeparator st = emitSeparator ()) := by
  constructor <;> intro hv <;> simp [emitSepAndOutputSep, hprev, hcurr, hv]

/-- Witness for C1 at a concrete input: between two unmodified nodes whose
DSR gap holds `" <!--c--> "`, that exact substring is emitted. -/
theorem emitSepAndOutput_prefers_orig_sep_witness :
    emitSepAndOutputSep (fun _ => ['X'])
        ⟨true, true, "a <!--c--> b".data, 1, 11⟩ =
      jsSubstring "a <!--c--> b".data 1 11 :=
  (emitSepAndOutput_prefers_orig_sep (fun _ => ['X'])
    ⟨true, true, "a <!--c--> b".data, 1, 11⟩ rfl rfl).1 (by decide)

/-- C4 (counterexample): with `old = {min:2, max:2}` and `new = {max:0}`
the merged `min` is `2` and the claimed `max = min(old.max, new.max) = 0`,
yet `mergeConstraints` returns `max = 2`: on a conflict the newer
constraint's `max` does not override the result — the final
`res.max = res.min` assignment does. -/
theorem mergeConstraints_claim_counterexample :
    mergeConstraints ⟨some 2, some 2⟩ ⟨none, some 0⟩ = ⟨some 2, some 2⟩ ∧
    (mergeConstraints ⟨some 2, some 2⟩ ⟨none, some 0⟩).max ≠
      some (Nat.min 2 0) := by decide

/-- C4 (amended): `mergeConstraints` returns
`min = max(old.min ?? 0, new.min ?? 0)` and
`max = min(old.max ?? 2, new.max ?? 2)` whenever these are compatible;
on a `min > max` conflict the result is collapsed to `min = max`, where
the min is lowered to the newer constraint's min when that min is
nonzero and smaller (and the newer max does not exceed the merged min),
and is the merged min otherwise. -/
theorem mergeConstraints_spec (oldC newC : SepConstraints) :
    mergeConstraints oldC newC =
      (let resMin := Nat.max (oldC.min.getD 0) (newC.min.getD 0)
       let resMax := Nat.min (oldC.max.getD 2) (newC.max.getD 2)
       if resMin ≤ resMax then ⟨some resMin, some resMax⟩
       else if newC.min.getD 0 ≠ 0 ∧ newC.min.getD 0 < resMin ∧
               ¬(newC.max.isSome ∧ resMin < newC.max.getD 0) then
         ⟨newC.min, newC.min⟩
       else ⟨some resMin, some resMin⟩) := by
  unfold mergeConstraints
  dsimp only
  split_ifs <;> simp_all

/-- C6 (counterexample): a wikitext `br` inside a `p` that has sibling
content (three children) and pending constraints `{min:1, max:2}` emits
the empty string but leaves the constraints untouched — they are not
forced to `{min:2, max:2}`. -/
theorem br_in_p_counterexample :
    brHandle ⟨none, "P", 3, some ⟨some 1, some 2⟩⟩ =
      ([], some ⟨some 1, some 2⟩) ∧
    some (⟨some 1, some 2⟩ : SepConstraints) ≠
      some (⟨some 2, some 2⟩ : SepConstraints) := by decide

/-- C6 (amended): for a `br` whose `stx` is not `html` and whose parent
is a `p`, the handler emits the empty string (never `<br>`), and forces
the pending separator constraints to `{min:2, max:2}` only in the
`p/br`-pair case — pending constraints present with `min = 2` and the
parent having exactly one child; otherwise the constraints are left
unchanged. -/
theorem br_in_p_emits_empty (env : BrEnv) (hstx : env.stx ≠ some "html")
    (hp : env.parentNodeName = "P") :
    (brHandle env).1 = [] ∧
    (brHandle env).2 =
      (match env.sepConstraints with
       | some c =>
         if c.min = some 2 ∧ env.parentChildCount = 1 then
           some { c with min := some 2, max := some 2 }
         else some c
       | none => none) := by
  unfold brHandle
  rw [if_neg (by simp [hstx, hp])]
  cases env.sepConstraints with
  | none => exact ⟨rfl, rfl⟩
  | some c =>
    by_cases h : c.min = some 2 ∧ env.parentChildCount = 1 <;>
      simp [h]

/-- Witness for C6 at a concrete input: the p/br-pair case. -/
theorem br_in_p_emits_empty_witness :
    (⟨none, "P", 1, some ⟨some 2, some 2⟩⟩ : BrEnv).stx ≠ some "html" ∧
    (brHandle ⟨none, "P", 1, some ⟨some 2, some 2⟩⟩).1 = [] :=
  ⟨by decide, (br_in_p_emits_empty ⟨none, "P", 1, some ⟨some 2, some 2⟩⟩
      (by decide) rfl).1⟩

/-- C7 (counterexample): with `editMode = false`, a meta with
`typeof="mw:StartTag"` and no `property` attribute is still deleted
(`stripMarkerMetas` takes the deletion branch, not `return true`): the
regex branch of the condition is not gated on `editMode`. -/
theorem stripMarkerMetas_counterexample :
    stripMarkerMetas false ⟨some "mw:StartTag", none⟩ = false := by decide

/-- C7 (amended): `stripMarkerMetas` deletes a node exactly when its
`typeof` is non-empty, matches the marker regex and the node has no
(truthy) `property` attribute — in *every* mode — or when `editMode` is
set and the `typeof` is exactly `mw:Placeholder/StrippedTag`. -/
theorem stripMarkerMetas_deletes_iff (editMode : Bool) (node : MetaEnv) :
    stripMarkerMetas editMode node = false ↔
      ((∃ s, node.typeofAttr = some s ∧ s.isEmpty = false ∧
          markerTypeMatch s.data = true ∧ jsTruthy node.propertyAttr = false) ∨
       (editMode = true ∧ node.typeofAttr = some "mw:Placeholder/StrippedTag")) := by
  unfold stripMarkerMetas
  rcases h : node.typeofAttr with _ | s
  · simp [h]
  · simp only [h, Option.some.injEq, exists_eq_left']
    split
    · rename_i hc
      simp only [Bool.or_eq_true, Bool.and_eq_true, Bool.not_eq_true', beq_iff_eq,
                 Option.some.injEq] at hc
      exact iff_of_true rfl (by tauto)
    · rename_i hc
      simp only [Bool.or_eq_true, Bool.and_eq_true, Bool.not_eq_true', beq_iff_eq,
                 Option.some.injEq] at hc
      exact iff_of_false (by simp) (by tauto)

/-- C8: `commentWT` escapes only the *first* occurrence of `-->` in the
comment body (the replace regex lacks the `g` flag).  For the body
`-->x-->` the emitted comment is `<!----&gt;x-->-->`, which still
contains the second, unescaped `-->` from the body — not the
fully-escaped `<!----&gt;x--&gt;-->` the claim describes. -/
theorem commentWT_escapes_first_only :
    commentWT "-->x-->".data = "<!----&gt;x-->-->".data ∧
    commentWT "-->x-->".data ≠ "<!----&gt;x--&gt;-->".data := by decide

/-- C5 (counterexample): for the fragment `{{` followed by a bare
carriage return, no group-1 alternative of the wrap regex can match the
head (it ends in a CR run with nothing after it), so `text.match` is
`null`, the `match[1]` access in `escapedText` throws a TypeError, and
`escapeWikiText` throws instead of returning the wrapped fragment. -/
theorem escapeWikiText_braces_counterexample :
    escapedText "\x7b\x7b\r".data = none ∧
    escapeWikiText (fun _ _ _ => false)
        ⟨false, false, false, [], ⟨[], false, false, false, false⟩⟩
        "\x7b\x7b\r".data ⟨false⟩ = none := by decide

/-- C5 (amended): for every serializer state and every text fragment
containing `{{{`, `{{`, `}}}` or `}}` (equivalently, matching the brace
regex), `escapeWikiText` returns exactly the result of `escapedText`:
the wrapped form — maximal trailing newline run split off, head
enclosed in `<nowiki>…</nowiki>`, run reattached — whenever the wrap
regex can match the head, and the propagated TypeError (`none`)
otherwise; in neither case is the fragment emitted raw.  This holds for
every instantiation of the external tokenizer check. -/
theorem escapeWikiText_braces_wrapped
    (hasWikitextTokens : Bool → List Char → Bool → Bool)
    (st : EWTState) (opts : EWTOpts) (text : List Char)
    (h : hasTplBraces text = true) :
    escapeWikiText hasWikitextTokens st text opts = escapedText text ∧
    escapeWikiText hasWikitextTokens st text opts ≠ some text := by
  have h1 : ewtFastCheckMatch text = true := by
    unfold ewtFastCheckMatch
    rw [hasTplBraces_special text h]
    simp
  have heq : escapeWikiText hasWikitextTokens st text opts = escapedText text := by
    unfold escapeWikiText
    rw [h1, h]
    by_cases hw : (match st.wteHandlerStack.head? with
                   | some hh => hh text opts
                   | none => false) = true
    · simp [hw]
    · simp [hw]
  refine ⟨heq, ?_⟩
  rw [heq]
  exact escapedText_ne_raw text

/-- Witness for C5 at a concrete input: the fragment `{{x` is wrapped. -/
theorem escapeWikiText_braces_wrapped_witness :
    hasTplBraces "\x7b\x7bx".data = true ∧
    escapeWikiText (fun _ _ _ => false)
        ⟨false, false, false, [], ⟨[], false, false, false, false⟩⟩
        "\x7b\x7bx".data ⟨false⟩ = escapedText "\x7b\x7bx".data :=
  ⟨by decide, (escapeWikiText_braces_wrapped (fun _ _ _ => false)
    ⟨false, false, false, [], ⟨[], false, false, false, false⟩⟩
    ⟨false⟩ "\x7b\x7bx".data (by decide)).1⟩

/-- C3 (counterexample): a handler that throws `"boom"` on a `P` node is
logged with the node's name, but the exception is *not* propagated to
the caller of `serializeDOM`: the run returns a normal result and the
following `PRE` node is still serialized. -/
theorem handlerException_counterexample :
    serializeDOMRun [("P", .error "boom"), ("PRE", .ok "x".data)] =
      .ok (["x".data], [("boom", "P")]) ∧
    serializeDOMRun [("P", .error "boom"), ("PRE", .ok "x".data)] ≠
      .error "boom" := by
  exact ⟨rfl, by simp [serializeDOMRun, serializeSiblingsCatch, serializeDOMCatch]⟩

/-- C3 (amended): every exception thrown by a tag handler's `handle`
function is caught by the try/catch at the invocation site inside
`_serializeNode`, logged together with the node's identity, and then
suppressed: serialization continues with the remaining nodes, and the
caller of `serializeDOM` observes a normal result containing the chunks
of all non-throwing handlers. -/
theorem handlerExceptions_logged_and_suppressed
    (nodes : List (String × Except String (List Char))) :
    serializeDOMRun nodes =
      .ok (nodes.filterMap (fun n =>
             match n.2 with | .ok out => some out | .error _ => none),
           nodes.filterMap (fun n =>
             match n.2 with | .error e => some (e, n.1) | .ok _ => none)) := by
  unfold serializeDOMRun serializeDOMCatch
  rw [serializeSiblingsCatch_spec]

/-- C9: `_buildTemplateWT` emits, for each template part, `{{target}}`
when the params map is empty and `{{target|arg|…|arg}}` otherwise, where
a parameter whose key equals the decimal string of its 1-based position
is emitted as its value alone and every other parameter as `key=value`;
non-template parts are emitted verbatim, and the parts are concatenated. -/
theorem buildTemplateWT_format (parts : List TplPart) :
    buildTemplateWT parts = (parts.map claimPartWT).flatten := by
  unfold buildTemplateWT
  congr 1
  induction parts with
  | nil => rfl
  | cons p rest ih =>
    simp only [List.map_cons, List.cons.injEq]
    refine ⟨?_, ih⟩
    cases p with
    | plain wt => rfl
    | template target params =>
      cases params with
      | nil => simp [claimPartWT]
      | cons kv ps =>
        simp [claimPartWT, claimTplArg, escapeTplArgWT, List.append_assoc]

/-- C2: `serializeChildren` leaves the depth of `wteHandlerStack`
unchanged, both when an optional escape handler is supplied (pushed
before the child walk, popped after) and when none is supplied. -/
theorem serializeChildren_stack_balanced (esc : Option Nat)
    (children : SerForest) (stack : List Nat) :
    (serializeChildrenStack esc children stack).length = stack.length := by
  simp [serializeChildrenStack,
        serializeForestStack_preserves children (pushEsc esc stack)]
  cases esc <;> rfl

end Parsoid
